import Mathlib

/-!
Shallow embedding of the Studio Testnet indexer's ingestion pipeline,
persistence store and interface classifier, with theorems checking the
natural-language specification against the code.

Sources embedded:
- `DatabaseService` (`src/services/database.ts`): Postgres-backed store with
  `INSERT ... ON CONFLICT DO UPDATE` upserts keyed on primary keys.
- `IndexerService` (`src/services/indexer.ts`): `start` / `stop` /
  `handleNewBlock` / `processHistoricalBlocks` / `processBlock` /
  `getLastProcessedBlock` / `isRunning`.
- `detectAndStoreInterfaces` (`src/utils/contract-verifier.ts`).

Modelling conventions: JavaScript numbers and BigNumbers are `Int` (the store
renders several of them as decimal strings; only the numeric value is ever
load-bearing). `Date` values are the underlying epoch-millisecond instant.
Remote calls are total functions on a `Chain` record, with `Option` for the
fetches that can legally return absent; store write failures are injected
through an explicit `FailModel` oracle, mirroring the `try`/`throw` paths.
-/

namespace Indexer

/-- Key-based upsert, embedding `INSERT ... ON CONFLICT (key) DO UPDATE`:
the unique key constraint means at most one row conflicts; the conflicting
row is replaced in place, otherwise the new row is appended. -/
def upsertBy {α κ : Type} [DecidableEq κ] (key : α → κ) (x : α) : List α → List α
  | [] => [x]
  | r :: rest => if key r = key x then x :: rest else r :: upsertBy key x rest

/-- Block row persisted by the store (`Block` interface in database.ts). -/
structure Block where
  number : Int
  hash : String
  parent_hash : String
  timestamp : Int
  transactions_count : Int
  gas_used : Int
  gas_limit : Int
  base_fee_per_gas : Option Int
deriving DecidableEq, Repr

/-- Transaction row persisted by the store (`Transaction` interface in
database.ts); `created_at` is the instant whose ISO rendering the source
stores. -/
structure Transaction where
  hash : String
  block_number : Int
  from_address : String
  to_address : Option String
  value : Int
  gas_price : Int
  gas_used : Int
  input : String
  status : Bool
  transaction_index : Int
  nonce : Int
  created_at : Int
deriving DecidableEq, Repr

/-- State of the persistence store: the `blocks` and `transactions` tables.
Contract tables are not needed by the ingestion claims. -/
structure DBState where
  blocks : List Block
  transactions : List Transaction
deriving DecidableEq, Repr

def emptyDB : DBState := { blocks := [], transactions := [] }

/-- DatabaseService.insertBlock: upsert keyed on `number`. -/
def insertBlock (b : Block) (db : DBState) : DBState :=
  { db with blocks := upsertBy Block.number b db.blocks }

/-- DatabaseService.insertTransaction: upsert keyed on `hash`. -/
def insertTransaction (t : Transaction) (db : DBState) : DBState :=
  { db with transactions := upsertBy Transaction.hash t db.transactions }

/-- DatabaseService.getLatestBlock: `SELECT * FROM blocks ORDER BY number
DESC LIMIT 1`, null when the table is empty. -/
def getLatestBlock (db : DBState) : Option Block :=
  db.blocks.foldl
    (fun acc b => match acc with
      | none => some b
      | some m => if b.number > m.number then some b else some m)
    none

/-- DatabaseService.getBlock: `SELECT * FROM blocks WHERE number = $1`. -/
def getBlock (db : DBState) (n : Int) : Option Block :=
  db.blocks.find? (fun b => decide (b.number = n))

/-- DatabaseService.getTotalTransactions: `SELECT COUNT(*) FROM transactions`. -/
def getTotalTransactions (db : DBState) : Nat :=
  db.transactions.length

/-- Receipt fields read by processBlock (`getTransactionReceipt` result). -/
structure Receipt where
  gasUsed : Int
  status : Int
  transactionIndex : Int
deriving DecidableEq, Repr

/-- Transaction as returned inside `getBlockWithTransactions`
(ethers `TransactionResponse`, the fields processBlock reads). -/
structure ChainTx where
  hash : String
  fromAddress : String
  toAddress : Option String
  value : Int
  gasPrice : Option Int
  data : String
  nonce : Int
deriving DecidableEq, Repr

/-- Block-with-transactions as returned by `getBlockWithTransactions`. -/
structure ChainBlock where
  hash : String
  parentHash : String
  timestamp : Int
  gasUsed : Int
  gasLimit : Int
  baseFeePerGas : Option Int
  transactions : List ChainTx
deriving DecidableEq, Repr

/-- BlockchainService as seen by the indexer: `blocks` is
`getBlockWithTransactions` (none models a throw for a missing block),
`receipts` is `getTransactionReceipt` (none is the legal absent result),
`head` is `getLatestBlockNumber`. -/
structure Chain where
  blocks : Int → Option ChainBlock
  receipts : String → Option Receipt
  head : Int

/-- Failure oracle for store writes: a write whose oracle bit is true models
the corresponding `pool.query` throwing (so nothing is written and the error
propagates to the caller, exactly as in insertBlock/insertTransaction). -/
structure FailModel where
  blockFail : Block → Bool
  txFail : Transaction → Bool

/-- Failure oracle under which every store write succeeds. -/
def noFail : FailModel := { blockFail := fun _ => false, txFail := fun _ => false }

/-- Errors a processBlock pass can rethrow. -/
inductive ProcessError where
  | fetchFailed : ProcessError
  | blockInsertFailed : ProcessError
  | txInsertFailed : String → ProcessError
deriving DecidableEq, Repr

/-- Block row built by processBlock from the fetched block (timestamps become
epoch milliseconds via `new Date(timestamp * 1000)`). -/
def mkBlock (blockNumber : Int) (bwt : ChainBlock) : Block :=
  { number := blockNumber
    hash := bwt.hash
    parent_hash := bwt.parentHash
    timestamp := bwt.timestamp * 1000
    transactions_count := bwt.transactions.length
    gas_used := bwt.gasUsed
    gas_limit := bwt.gasLimit
    base_fee_per_gas := bwt.baseFeePerGas }

/-- Transaction row built by processBlock from a fetched transaction and its
receipt. `tx.to || undefined` collapses a missing or empty recipient to
absent; `tx.gasPrice?.toString() || '0'` defaults a missing gas price to 0
(a present BigNumber renders to a non-empty, hence truthy, string). -/
def mkTransaction (tx : ChainTx) (receipt : Receipt) (blockNumber : Int)
    (timestamp : Int) : Transaction :=
  { hash := tx.hash
    block_number := blockNumber
    from_address := tx.fromAddress
    to_address := match tx.toAddress with
      | none => none
      | some a => if a = "" then none else some a
    value := tx.value
    gas_price := tx.gasPrice.getD 0
    gas_used := receipt.gasUsed
    input := tx.data
    status := decide (receipt.status = 1)
    transaction_index := receipt.transactionIndex
    nonce := tx.nonce
    created_at := timestamp * 1000 }

/-- State of an IndexerService instance: the two private mutable fields plus
the store it writes through. -/
structure IndexerState where
  isIndexing : Bool
  lastProcessedBlock : Int
  db : DBState
deriving DecidableEq, Repr

/-- IndexerService constructor: `isIndexing = false`, `lastProcessedBlock = 0`,
over a given store. -/
def mkIndexer (db : DBState) : IndexerState :=
  { isIndexing := false, lastProcessedBlock := 0, db := db }

/-- IndexerService.getLastProcessedBlock. -/
def getLastProcessedBlock (s : IndexerState) : Int :=
  s.lastProcessedBlock

/-- IndexerService.isRunning. -/
def isRunning (s : IndexerState) : Bool :=
  s.isIndexing

/-- Transaction loop of processBlock: for each fetched transaction, fetch its
receipt; `if (!receipt) continue` skips the transaction when the receipt is
absent; otherwise build the row and insert it, a failing insert throwing out
of the loop with the partial writes already committed. -/
def processTxs (chain : Chain) (fail : FailModel) (blockNumber : Int)
    (timestamp : Int) : List ChainTx → DBState → DBState × Option ProcessError
  | [], db => (db, none)
  | tx :: rest, db =>
    match chain.receipts tx.hash with
    | none => processTxs chain fail blockNumber timestamp rest db
    | some receipt =>
      let t := mkTransaction tx receipt blockNumber timestamp
      if fail.txFail t then (db, some (ProcessError.txInsertFailed tx.hash))
      else processTxs chain fail blockNumber timestamp rest (insertTransaction t db)

/-- IndexerService.processBlock: fetch the block with transactions, insert the
block row, run the transaction loop, and only on full success set
`lastProcessedBlock = blockNumber`. The catch block logs and rethrows, so an
error reaches the caller with the watermark untouched; the returned state
carries whatever writes were committed before the throw. -/
def processBlock (chain : Chain) (fail : FailModel) (s : IndexerState)
    (blockNumber : Int) : IndexerState × Option ProcessError :=
  match chain.blocks blockNumber with
  | none => (s, some ProcessError.fetchFailed)
  | some bwt =>
    let block := mkBlock blockNumber bwt
    if fail.blockFail block then (s, some ProcessError.blockInsertFailed)
    else
      match processTxs chain fail blockNumber bwt.timestamp bwt.transactions
          (insertBlock block s.db) with
      | (db2, some e) => ({ s with db := db2 }, some e)
      | (db2, none) =>
        ({ s with db := db2, lastProcessedBlock := blockNumber }, none)

/-- IndexerService.handleNewBlock: ignore the notification when not indexing;
otherwise process the announced block directly, catching (and only logging)
any processing error. -/
def handleNewBlock (chain : Chain) (fail : FailModel) (s : IndexerState)
    (blockNumber : Int) : IndexerState :=
  if s.isIndexing then (processBlock chain fail s blockNumber).1 else s

/-- IndexerService.processHistoricalBlocks: loop while indexing; compute
`nextBlock = lastProcessedBlock + 1`; break when past the head; otherwise
process `nextBlock`, a failure keeping the state (watermark unadvanced) and
retrying after a backoff. The loop has no bound in the source; `fuel` bounds
the number of iterations modelled. -/
def processHistoricalBlocks (chain : Chain) (fail : FailModel) :
    Nat → IndexerState → IndexerState
  | 0, s => s
  | fuel + 1, s =>
    if s.isIndexing then
      if s.lastProcessedBlock + 1 > chain.head then s
      else
        processHistoricalBlocks chain fail fuel
          (processBlock chain fail s (s.lastProcessedBlock + 1)).1
    else s

/-- JavaScript `x || d` on an optional number: absent or zero falls back to
the default. -/
def jsOr (o : Option Int) (d : Int) : Int :=
  match o with
  | none => d
  | some v => if v = 0 then d else v

/-- Error start() can throw. -/
inductive StartError where
  | notConnected : StartError
deriving DecidableEq, Repr

/-- IndexerService.start: if already indexing, log a warning and return
successfully; otherwise require connectivity (`throw` otherwise), set
`lastProcessedBlock = lastBlock?.number || 0` from the store, set
`isIndexing = true`, subscribe to new blocks, and run the historical
backfill to completion. -/
def start (chain : Chain) (fail : FailModel) (connected : Bool) (fuel : Nat)
    (s : IndexerState) : Except StartError IndexerState :=
  if s.isIndexing then Except.ok s
  else if !connected then Except.error StartError.notConnected
  else
    let wm := jsOr ((getLatestBlock s.db).map Block.number) 0
    Except.ok (processHistoricalBlocks chain fail fuel
      { s with lastProcessedBlock := wm, isIndexing := true })

/-- IndexerService.stop: no-op when not indexing; otherwise clear the
indexing flag (and unsubscribe). -/
def stop (s : IndexerState) : IndexerState :=
  if s.isIndexing then { s with isIndexing := false } else s

/-- ABI entry fields read by detectAndStoreInterfaces. -/
structure AbiItem where
  type : String
  name : String
deriving DecidableEq, Repr

/-- The `interfaceDetectors` table of detectAndStoreInterfaces: each standard
with its required function names. -/
def interfaceDetectors : List (String × List String) :=
  [("ERC20", ["balanceOf", "transfer", "approve", "allowance", "transferFrom"]),
   ("ERC721", ["ownerOf", "approve", "transferFrom", "safeTransferFrom"]),
   ("ERC1155", ["balanceOf", "balanceOfBatch", "safeBatchTransferFrom"])]

/-- Function-name set built by detectAndStoreInterfaces: names of ABI items
whose type is `function`. -/
def abiFunctionNames (abi : List AbiItem) : List String :=
  (abi.filter (fun i => i.type == "function")).map AbiItem.name

/-- Interface tags detectAndStoreInterfaces stores for an ABI: the standards
whose required functions are all present in the ABI's function-name set
(`requiredFunctions.every(func => functions.has(func))`). -/
def detectInterfaces (abi : List AbiItem) : List String :=
  (interfaceDetectors.filter
    (fun d => d.2.all (fun f => (abiFunctionNames abi).contains f))).map Prod.fst

/-! Concrete fixtures used by the closed counterexamples and witnesses. -/

/-- Chain block with no transactions, reused wherever transaction content is
irrelevant. -/
def plainBlock : ChainBlock :=
  { hash := "0xb", parentHash := "0xp", timestamp := 100, gasUsed := 0,
    gasLimit := 1000, baseFeePerGas := none, transactions := [] }

/-- Chain whose node never returns a block or receipt and reports head 0. -/
def chainTrivial : Chain :=
  { blocks := fun _ => none, receipts := fun _ => none, head := 0 }

/-- Indexer instance that is already running, watermark 7, empty store. -/
def sRunning : IndexerState :=
  { isIndexing := true, lastProcessedBlock := 7, db := emptyDB }

/-- Transaction announced in block 3 of the receipt-less chain. -/
def txC1 : ChainTx :=
  { hash := "0xaaa", fromAddress := "0xalice", toAddress := some "0xbob",
    value := 5, gasPrice := some 2, data := "0x", nonce := 0 }

/-- Block 3 carrying one transaction whose receipt is never available. -/
def bwtC1 : ChainBlock :=
  { hash := "0xb3", parentHash := "0xb2", timestamp := 100, gasUsed := 0,
    gasLimit := 1000, baseFeePerGas := none, transactions := [txC1] }

/-- Chain holding only block 3, with every receipt fetch returning absent. -/
def chainC1 : Chain :=
  { blocks := fun n => if n = 3 then some bwtC1 else none,
    receipts := fun _ => none, head := 3 }

/-- Indexer with watermark 2 about to process block 3. -/
def sC1 : IndexerState :=
  { isIndexing := true, lastProcessedBlock := 2, db := emptyDB }

/-- Chain holding blocks 11 through 15 (all empty), head 15. -/
def chainC3 : Chain :=
  { blocks := fun n => if 11 ≤ n ∧ n ≤ 15 then some plainBlock else none,
    receipts := fun _ => none, head := 15 }

/-- Running indexer with watermark 10 and empty store. -/
def sC3 : IndexerState :=
  { isIndexing := true, lastProcessedBlock := 10, db := emptyDB }

/-- Chain holding only block 3 (empty), head 5. -/
def chainC4 : Chain :=
  { blocks := fun n => if n = 3 then some plainBlock else none,
    receipts := fun _ => none, head := 5 }

/-- Running indexer with watermark 5 and empty store. -/
def sC4 : IndexerState :=
  { isIndexing := true, lastProcessedBlock := 5, db := emptyDB }

/-- Block 0 of the three-block scenario: no transactions. -/
def b0C6 : ChainBlock :=
  { hash := "0xb0", parentHash := "0x", timestamp := 10, gasUsed := 0,
    gasLimit := 1000, baseFeePerGas := none, transactions := [] }

/-- The single transaction of the three-block scenario, in block 1. -/
def t1C6 : ChainTx :=
  { hash := "0xt1", fromAddress := "0xalice", toAddress := some "0xbob",
    value := 5, gasPrice := some 2, data := "0x", nonce := 0 }

/-- Receipt of the single transaction. -/
def r1C6 : Receipt := { gasUsed := 21000, status := 1, transactionIndex := 0 }

/-- Block 1 of the three-block scenario: one transaction. -/
def b1C6 : ChainBlock :=
  { hash := "0xb1", parentHash := "0xb0", timestamp := 11, gasUsed := 21000,
    gasLimit := 1000, baseFeePerGas := some 7, transactions := [t1C6] }

/-- Block 2 of the three-block scenario: no transactions. -/
def b2C6 : ChainBlock :=
  { hash := "0xb2", parentHash := "0xb1", timestamp := 12, gasUsed := 0,
    gasLimit := 1000, baseFeePerGas := none, transactions := [] }

/-- Chain of the concrete spec scenario: head 2, three blocks with 0, 1 and 0
transactions, the one receipt available. -/
def chainC6 : Chain :=
  { blocks := fun n =>
      if n = 0 then some b0C6
      else if n = 1 then some b1C6
      else if n = 2 then some b2C6
      else none,
    receipts := fun h => if h = "0xt1" then some r1C6 else none,
    head := 2 }

/-- State start() reaches in the three-block scenario: blocks 1 and 2
ingested (block 0 is skipped by the `|| 0` initialization), the single
transaction stored, watermark 2. -/
def finalC6 : IndexerState :=
  { isIndexing := true, lastProcessedBlock := 2,
    db := { blocks := [mkBlock 1 b1C6, mkBlock 2 b2C6],
            transactions := [mkTransaction t1C6 r1C6 1 b1C6.timestamp] } }

/-- Transaction of the failing-write scenario. -/
def txC7 : ChainTx :=
  { hash := "0xbad", fromAddress := "0xalice", toAddress := some "0xbob",
    value := 1, gasPrice := some 1, data := "0x", nonce := 4 }

/-- Receipt of the failing-write transaction. -/
def rC7 : Receipt := { gasUsed := 21000, status := 1, transactionIndex := 0 }

/-- Block 4 carrying the transaction whose store write fails. -/
def bwtC7 : ChainBlock :=
  { hash := "0xb4", parentHash := "0xb3", timestamp := 40, gasUsed := 21000,
    gasLimit := 1000, baseFeePerGas := none, transactions := [txC7] }

/-- Chain holding only block 4, its receipt available. -/
def chainC7 : Chain :=
  { blocks := fun n => if n = 4 then some bwtC7 else none,
    receipts := fun h => if h = "0xbad" then some rC7 else none, head := 4 }

/-- Failure oracle making exactly the write of the `0xbad` row fail. -/
def failC7 : FailModel :=
  { blockFail := fun _ => false, txFail := fun t => t.hash == "0xbad" }

/-- Running indexer with watermark 3 about to process block 4. -/
def sC7 : IndexerState :=
  { isIndexing := true, lastProcessedBlock := 3, db := emptyDB }

/-- ABI exposing exactly the five required ERC20 functions. -/
def erc20Abi : List AbiItem :=
  [{ type := "function", name := "balanceOf" },
   { type := "function", name := "transfer" },
   { type := "function", name := "approve" },
   { type := "function", name := "allowance" },
   { type := "function", name := "transferFrom" }]

/-- ABI exposing exactly the four required ERC721 functions. -/
def erc721Abi : List AbiItem :=
  [{ type := "function", name := "ownerOf" },
   { type := "function", name := "approve" },
   { type := "function", name := "transferFrom" },
   { type := "function", name := "safeTransferFrom" }]

/-- ABI satisfying no standard's required set. -/
def nonStandardAbi : List AbiItem :=
  [{ type := "function", name := "mint" }, { type := "event", name := "Transfer" }]

/-- Stored block row used by the idempotence witness. -/
def bW : Block :=
  { number := 1, hash := "0xb1", parent_hash := "0xb0", timestamp := 1000,
    transactions_count := 0, gas_used := 0, gas_limit := 1000,
    base_fee_per_gas := none }

/-- Stored transaction row used by the idempotence witness. -/
def tW : Transaction :=
  { hash := "0xt", block_number := 1, from_address := "0xalice",
    to_address := none, value := 0, gas_price := 1, gas_used := 21000,
    input := "0x", status := true, transaction_index := 0, nonce := 0,
    created_at := 1000 }

/-- Store holding one block and one transaction, keys distinct. -/
def dbW : DBState := { blocks := [bW], transactions := [tW] }

section UpsertLemmas

variable {α κ : Type} [DecidableEq κ] (key : α → κ)

theorem upsertBy_idem (x : α) (l : List α) :
    upsertBy key x (upsertBy key x l) = upsertBy key x l := by
  induction l with
  | nil => simp [upsertBy]
  | cons r rest ih =>
    by_cases h : key r = key x
    · simp [upsertBy, h]
    · simp [upsertBy, h, ih]

theorem mem_upsertBy {x y : α} {l : List α} (h : y ∈ upsertBy key x l) :
    y = x ∨ y ∈ l := by
  induction l with
  | nil => simpa [upsertBy] using h
  | cons r rest ih =>
    by_cases hk : key r = key x
    · simp only [upsertBy, if_pos hk, List.mem_cons] at h
      rcases h with h | h
      · exact Or.inl h
      · exact Or.inr (List.mem_cons_of_mem _ h)
    · simp only [upsertBy, if_neg hk, List.mem_cons] at h
      rcases h with h | h
      · exact Or.inr (h ▸ List.mem_cons_self _ _)
      · rcases ih h with h' | h'
        · exact Or.inl h'
        · exact Or.inr (List.mem_cons_of_mem _ h')

theorem find?_upsertBy_self (x : α) (l : List α) :
    (upsertBy key x l).find? (fun r => decide (key r = key x)) = some x := by
  induction l with
  | nil => simp [upsertBy, List.find?]
  | cons r rest ih =>
    by_cases h : key r = key x
    · simp [upsertBy, h, List.find?]
    · simp only [upsertBy, if_neg h, List.find?_cons, decide_eq_false h]
      exact ih

theorem find?_upsertBy_ne (x : α) (l : List α) {k : κ} (hk : key x ≠ k) :
    (upsertBy key x l).find? (fun r => decide (key r = k)) =
      l.find? (fun r => decide (key r = k)) := by
  induction l with
  | nil => simp [upsertBy, List.find?, hk]
  | cons r rest ih =>
    by_cases h : key r = key x
    · have hr : ¬ key r = k := by rw [h]; exact hk
      simp [upsertBy, h, List.find?_cons, hk, hr]
    · simp only [upsertBy, if_neg h, List.find?_cons]
      by_cases hr : key r = k
      · simp [hr]
      · simp only [decide_eq_false hr]
        exact ih

theorem countP_upsertBy (x : α) (l : List α) (h : (l.map key).Nodup) :
    (upsertBy key x l).countP (fun r => decide (key r = key x)) = 1 := by
  induction l with
  | nil => simp [upsertBy, List.countP_cons]
  | cons r rest ih =>
    simp only [List.map_cons, List.nodup_cons] at h
    by_cases hk : key r = key x
    · simp only [upsertBy, if_pos hk, List.countP_cons]
      have hzero : rest.countP (fun r => decide (key r = key x)) = 0 := by
        rw [List.countP_eq_zero]
        intro a ha
        simp only [decide_eq_true_eq]
        intro hak
        exact h.1 (List.mem_map.mpr ⟨a, ha, hak.trans hk.symm⟩)
      simp [hzero]
    · simp only [upsertBy, if_neg hk, List.countP_cons]
      simp [hk, ih h.2]

theorem nodup_upsertBy (x : α) (l : List α) (h : (l.map key).Nodup) :
    ((upsertBy key x l).map key).Nodup := by
  induction l with
  | nil => simp [upsertBy]
  | cons r rest ih =>
    simp only [List.map_cons, List.nodup_cons] at h
    by_cases hk : key r = key x
    · simp only [upsertBy, if_pos hk, List.map_cons, List.nodup_cons]
      exact ⟨by rw [← hk]; exact h.1, h.2⟩
    · simp only [upsertBy, if_neg hk, List.map_cons, List.nodup_cons]
      refine ⟨?_, ih h.2⟩
      intro hmem
      rcases List.mem_map.mp hmem with ⟨y, hy, hky⟩
      rcases mem_upsertBy key hy with rfl | hy'
      · exact hk hky.symm
      · exact h.1 (hky ▸ List.mem_map_of_mem key hy')

theorem length_upsertBy_of_mem (x : α) (l : List α)
    (h : ∃ r ∈ l, key r = key x) : (upsertBy key x l).length = l.length := by
  induction l with
  | nil => simp at h
  | cons r rest ih =>
    by_cases hk : key r = key x
    · simp [upsertBy, hk]
    · simp only [upsertBy, if_neg hk, List.length_cons]
      rcases h with ⟨y, hy, hky⟩
      rcases List.mem_cons.mp hy with rfl | hy'
      · exact absurd hky hk
      · rw [ih ⟨y, hy', hky⟩]

end UpsertLemmas

section ProcessLemmas

theorem processTxs_blocks (chain : Chain) (fail : FailModel) (n ts : Int)
    (l : List ChainTx) (db : DBState) :
    ((processTxs chain fail n ts l db).1).blocks = db.blocks := by
  induction l generalizing db with
  | nil => rfl
  | cons tx rest ih =>
    cases hr : chain.receipts tx.hash with
    | none => simp only [processTxs, hr]; exact ih db
    | some r =>
      simp only [processTxs, hr]
      cases hf : fail.txFail (mkTransaction tx r n ts) with
      | true => simp [hf]
      | false =>
        simp only [hf, Bool.false_eq_true, if_false]
        exact ih _

theorem processTxs_noFail_ok (chain : Chain) (n ts : Int) (l : List ChainTx)
    (db : DBState) : (processTxs chain noFail n ts l db).2 = none := by
  induction l generalizing db with
  | nil => rfl
  | cons tx rest ih =>
    cases hr : chain.receipts tx.hash with
    | none => simp only [processTxs, hr]; exact ih db
    | some r =>
      simp only [processTxs, hr, noFail, Bool.false_eq_true, if_false]
      exact ih _

theorem processTxs_mem_noFail (chain : Chain) (n ts : Int) (l : List ChainTx)
    (db : DBState) :
    ∀ t ∈ (processTxs chain noFail n ts l db).1.transactions,
      t ∈ db.transactions ∨ (chain.receipts t.hash).isSome := by
  induction l generalizing db with
  | nil => intro t ht; exact Or.inl ht
  | cons tx rest ih =>
    intro t ht
    cases hr : chain.receipts tx.hash with
    | none =>
      simp only [processTxs, hr] at ht
      exact ih db t ht
    | some r =>
      simp only [processTxs, hr, noFail, Bool.false_eq_true, if_false] at ht
      rcases ih _ t ht with h | h
      · rcases mem_upsertBy Transaction.hash h with rfl | h'
        · exact Or.inr (by rw [show (mkTransaction tx r n ts).hash = tx.hash from rfl, hr]; rfl)
        · exact Or.inl h'
      · exact Or.inr h

theorem processTxs_err_of_exists (chain : Chain) (fail : FailModel)
    (n ts : Int) (l : List ChainTx) (db : DBState)
    (h : ∃ tx ∈ l, ∃ r, chain.receipts tx.hash = some r ∧
         fail.txFail (mkTransaction tx r n ts) = true) :
    ((processTxs chain fail n ts l db).2).isSome := by
  induction l generalizing db with
  | nil => simp at h
  | cons tx rest ih =>
    rcases h with ⟨tx0, htx0, r0, hr0, hf0⟩
    rcases List.mem_cons.mp htx0 with rfl | hmem
    · simp only [processTxs, hr0, hf0, if_true]
      rfl
    · cases hr : chain.receipts tx.hash with
      | none =>
        simp only [processTxs, hr]
        exact ih db ⟨tx0, hmem, r0, hr0, hf0⟩
      | some r =>
        simp only [processTxs, hr]
        cases hf : fail.txFail (mkTransaction tx r n ts) with
        | true => simp [hf]
        | false =>
          simp only [hf, Bool.false_eq_true, if_false]
          exact ih _ ⟨tx0, hmem, r0, hr0, hf0⟩

theorem processBlock_noFail_spec (chain : Chain) (s : IndexerState) (n : Int)
    (bwt : ChainBlock) (hb : chain.blocks n = some bwt) :
    (processBlock chain noFail s n).2 = none ∧
    (processBlock chain noFail s n).1.isIndexing = s.isIndexing ∧
    (processBlock chain noFail s n).1.lastProcessedBlock = n ∧
    (processBlock chain noFail s n).1.db.blocks =
      upsertBy Block.number (mkBlock n bwt) s.db.blocks ∧
    ∀ t ∈ (processBlock chain noFail s n).1.db.transactions,
      t ∈ s.db.transactions ∨ (chain.receipts t.hash).isSome := by
  rcases hp : processTxs chain noFail n bwt.timestamp bwt.transactions
      (insertBlock (mkBlock n bwt) s.db) with ⟨db2, err⟩
  have herr : err = none := by
    have h := processTxs_noFail_ok chain n bwt.timestamp bwt.transactions
      (insertBlock (mkBlock n bwt) s.db)
    rw [hp] at h
    exact h
  subst herr
  have hbl : db2.blocks = upsertBy Block.number (mkBlock n bwt) s.db.blocks := by
    have h := processTxs_blocks chain noFail n bwt.timestamp bwt.transactions
      (insertBlock (mkBlock n bwt) s.db)
    rw [hp] at h
    exact h
  have hmem : ∀ t ∈ db2.transactions,
      t ∈ s.db.transactions ∨ (chain.receipts t.hash).isSome := by
    have h := processTxs_mem_noFail chain n bwt.timestamp bwt.transactions
      (insertBlock (mkBlock n bwt) s.db)
    rw [hp] at h
    exact h
  simp only [processBlock, hb]
  rw [if_neg (show ¬(noFail.blockFail (mkBlock n bwt) = true) from by
    simp [noFail]), hp]
  exact ⟨rfl, rfl, rfl, hbl, hmem⟩

theorem processBlock_error_keeps_watermark (chain : Chain) (fail : FailModel)
    (s : IndexerState) (n : Int)
    (h : ((processBlock chain fail s n).2).isSome) :
    (processBlock chain fail s n).1.lastProcessedBlock = s.lastProcessedBlock := by
  cases hcb : chain.blocks n with
  | none => simp [processBlock, hcb]
  | some bwt =>
    by_cases hbf : fail.blockFail (mkBlock n bwt) = true
    · simp [processBlock, hcb, hbf]
    · simp only [processBlock, hcb] at h ⊢
      rw [if_neg hbf] at h ⊢
      rcases hp : processTxs chain fail n bwt.timestamp bwt.transactions
          (insertBlock (mkBlock n bwt) s.db) with ⟨db2, err⟩
      cases err with
      | none => rw [hp] at h; exact Bool.noConfusion h
      | some e => rfl

end ProcessLemmas

/-- C1: counterexample. Block 3 holds one transaction whose receipt fetch
returns absent; processBlock skips the transaction (nothing is persisted in
the transactions table) yet still finishes without error and advances the
watermark from 2 to 3, contradicting the claim that lastProcessedBlock is
unchanged after such a pass. -/
theorem C1_counterexample :
    bwtC1.transactions = [txC1] ∧
    chainC1.receipts txC1.hash = none ∧
    getLastProcessedBlock sC1 = 2 ∧
    (processBlock chainC1 noFail sC1 3).2 = none ∧
    getLastProcessedBlock (processBlock chainC1 noFail sC1 3).1 = 3 ∧
    (processBlock chainC1 noFail sC1 3).1.db.transactions = [] :=
  ⟨rfl, rfl, rfl, rfl, rfl, rfl⟩

/-- C1 (amended): when the block fetch succeeds and no store write fails, a
transaction whose receipt fetch returns absent is skipped for the pass (it is
never inserted), but the pass still completes without error and advances the
watermark to the block number — so the skipped transaction is not retried. -/
theorem C1_amended (chain : Chain) (s : IndexerState) (n : Int)
    (bwt : ChainBlock) (hb : chain.blocks n = some bwt) :
    (processBlock chain noFail s n).2 = none ∧
    getLastProcessedBlock (processBlock chain noFail s n).1 = n ∧
    ∀ t ∈ (processBlock chain noFail s n).1.db.transactions,
      t ∈ s.db.transactions ∨ (chain.receipts t.hash).isSome := by
  have h := processBlock_noFail_spec chain s n bwt hb
  exact ⟨h.1, h.2.2.1, h.2.2.2.2⟩

/-- C1 witness: the amended statement evaluated on the receipt-less chain. -/
theorem C1_amended_witness :
    (processBlock chainC1 noFail sC1 3).2 = none ∧
    getLastProcessedBlock (processBlock chainC1 noFail sC1 3).1 = 3 :=
  ⟨(C1_amended chainC1 sC1 3 bwtC1 rfl).1,
   (C1_amended chainC1 sC1 3 bwtC1 rfl).2.1⟩

/-- C2: counterexample. With an empty store, start() initializes the
watermark to 0 (`lastBlock?.number || 0`), not −1: after start() on a chain
whose head is 0, lastProcessedBlock() is 0, so block 0 would never be
backfilled. -/
theorem C2_counterexample :
    getLatestBlock emptyDB = none ∧
    start chainTrivial noFail true 5 (mkIndexer emptyDB) =
      Except.ok { isIndexing := true, lastProcessedBlock := 0, db := emptyDB } ∧
    getLastProcessedBlock
      { isIndexing := true, lastProcessedBlock := 0, db := emptyDB } ≠ -1 :=
  ⟨rfl, rfl, by decide⟩

/-- C2 (amended): when start() finds no block persisted, the watermark is
initialized to 0 (so the first block backfilled is block 1, never block 0),
and lastProcessedBlock() returns 0 when nothing has been ingested — the
constructor also initializes it to 0. -/
theorem C2_amended (chain : Chain) (fail : FailModel) (fuel : Nat)
    (s : IndexerState) (h1 : s.isIndexing = false)
    (h2 : getLatestBlock s.db = none) (h3 : chain.head < 1) :
    getLastProcessedBlock (mkIndexer s.db) = 0 ∧
    start chain fail true fuel s =
      Except.ok { s with isIndexing := true, lastProcessedBlock := 0 } := by
  refine ⟨rfl, ?_⟩
  have hwm : jsOr ((getLatestBlock s.db).map Block.number) 0 = 0 := by
    rw [h2]; rfl
  simp only [start, h1, Bool.false_eq_true, if_false, Bool.not_true, hwm]
  cases fuel with
  | zero => rfl
  | succ m =>
    simp only [processHistoricalBlocks]
    rw [if_pos trivial, if_pos (show (0 : Int) + 1 > chain.head from by omega)]

/-- C2 witness: the amended statement evaluated on the empty store. -/
theorem C2_amended_witness :
    getLastProcessedBlock (mkIndexer emptyDB) = 0 ∧
    start chainTrivial noFail true 5 (mkIndexer emptyDB) =
      Except.ok { mkIndexer emptyDB with
        isIndexing := true, lastProcessedBlock := 0 } :=
  C2_amended chainTrivial noFail 5 (mkIndexer emptyDB) rfl rfl (by decide)

/-- C3: counterexample. With watermark 10, a live notification for block 15
makes the handler process block 15 alone: afterwards lastProcessedBlock() is
15 while blocks 11 through 14 were never ingested, contradicting the claimed
sequential gap backfill. -/
theorem C3_counterexample :
    getLastProcessedBlock sC3 = 10 ∧
    getLastProcessedBlock (handleNewBlock chainC3 noFail sC3 15) = 15 ∧
    getBlock (handleNewBlock chainC3 noFail sC3 15).db 11 = none ∧
    getBlock (handleNewBlock chainC3 noFail sC3 15).db 12 = none ∧
    getBlock (handleNewBlock chainC3 noFail sC3 15).db 13 = none ∧
    getBlock (handleNewBlock chainC3 noFail sC3 15).db 14 = none ∧
    getBlock (handleNewBlock chainC3 noFail sC3 15).db 15 =
      some (mkBlock 15 plainBlock) :=
  ⟨rfl, rfl, rfl, rfl, rfl, rfl, rfl⟩

/-- C3 (amended): a live notification for a block b beyond watermark + 1 is
not gap-filled: the handler processes exactly block b, the watermark jumps to
b, and the store's rows for every other block number are untouched (in
particular the gap blocks stay missing). -/
theorem C3_amended (chain : Chain) (s : IndexerState) (b : Int)
    (bwt : ChainBlock) (hrun : s.isIndexing = true)
    (hgap : s.lastProcessedBlock + 1 < b) (hb : chain.blocks b = some bwt) :
    getLastProcessedBlock (handleNewBlock chain noFail s b) = b ∧
    ∀ m, m ≠ b →
      getBlock (handleNewBlock chain noFail s b).db m = getBlock s.db m := by
  have h := processBlock_noFail_spec chain s b bwt hb
  simp only [handleNewBlock, hrun, if_true]
  refine ⟨h.2.2.1, fun m hm => ?_⟩
  show ((processBlock chain noFail s b).1.db.blocks).find?
      (fun bl => decide (bl.number = m)) = _
  rw [h.2.2.2.1]
  exact find?_upsertBy_ne Block.number (mkBlock b bwt) s.db.blocks
    (fun hc => hm (by simpa [mkBlock] using hc.symm))

/-- C3 witness: the amended statement evaluated at watermark 10 and
notification 15. -/
theorem C3_amended_witness :
    getLastProcessedBlock (handleNewBlock chainC3 noFail sC3 15) = 15 ∧
    getBlock (handleNewBlock chainC3 noFail sC3 15).db 12 = getBlock sC3.db 12 :=
  ⟨(C3_amended chainC3 sC3 15 plainBlock rfl (by decide) rfl).1,
   (C3_amended chainC3 sC3 15 plainBlock rfl (by decide) rfl).2 12 (by decide)⟩

/-- C4: counterexample. With watermark 5, a live notification for block 3 is
re-processed rather than ignored: the handler writes the block row for 3 into
the store and sets lastProcessedBlock() back to 3. -/
theorem C4_counterexample :
    getLastProcessedBlock sC4 = 5 ∧
    getLastProcessedBlock (handleNewBlock chainC4 noFail sC4 3) = 3 ∧
    (handleNewBlock chainC4 noFail sC4 3).db ≠ sC4.db ∧
    getBlock (handleNewBlock chainC4 noFail sC4 3).db 3 =
      some (mkBlock 3 plainBlock) :=
  ⟨rfl, rfl, by decide, rfl⟩

/-- C4 (amended): a live notification for a block b at or below the current
watermark is re-processed like any other: the block row for b is upserted and
the watermark is set to b, decreasing it when b is strictly below. -/
theorem C4_amended (chain : Chain) (s : IndexerState) (b : Int)
    (bwt : ChainBlock) (hrun : s.isIndexing = true)
    (hle : b ≤ s.lastProcessedBlock) (hb : chain.blocks b = some bwt) :
    getLastProcessedBlock (handleNewBlock chain noFail s b) = b ∧
    getBlock (handleNewBlock chain noFail s b).db b = some (mkBlock b bwt) := by
  have h := processBlock_noFail_spec chain s b bwt hb
  simp only [handleNewBlock, hrun, if_true]
  refine ⟨h.2.2.1, ?_⟩
  show ((processBlock chain noFail s b).1.db.blocks).find?
      (fun bl => decide (bl.number = b)) = _
  rw [h.2.2.2.1]
  exact find?_upsertBy_self Block.number (mkBlock b bwt) s.db.blocks

/-- C4 witness: the amended statement evaluated at watermark 5 and
notification 3. -/
theorem C4_amended_witness :
    getLastProcessedBlock (handleNewBlock chainC4 noFail sC4 3) = 3 ∧
    getBlock (handleNewBlock chainC4 noFail sC4 3).db 3 =
      some (mkBlock 3 plainBlock) :=
  C4_amended chainC4 sC4 3 plainBlock rfl (by decide) rfl

/-- C5: counterexample. Calling start() on an already-running indexer returns
successfully (the source only logs a warning and returns), instead of failing
with an AlreadyRunning error. -/
theorem C5_counterexample :
    isRunning sRunning = true ∧
    start chainTrivial noFail true 0 sRunning = Except.ok sRunning :=
  ⟨rfl, rfl⟩

/-- C5 (amended): calling start() when the pipeline is already running is a
successful no-op — it returns ok with the state unchanged, surfacing no
error to the caller. -/
theorem C5_amended (chain : Chain) (fail : FailModel) (connected : Bool)
    (fuel : Nat) (s : IndexerState) (h : s.isIndexing = true) :
    start chain fail connected fuel s = Except.ok s := by
  simp [start, h]

/-- C5 witness: the amended statement evaluated on a running indexer. -/
theorem C5_amended_witness :
    start chainTrivial noFail true 0 sRunning = Except.ok sRunning :=
  C5_amended chainTrivial noFail true 0 sRunning rfl

/-- C6: in the concrete scenario — empty store, head 2, three blocks with 0,
1 and 0 transactions — start() completes its backfill with exactly one
transaction stored and lastProcessedBlock() = 2, as the spec states. (The
code starts from block 1 rather than block 0, but block 0 is empty, so the
claimed counts hold.) -/
theorem C6_scenario :
    start chainC6 noFail true 5 (mkIndexer emptyDB) = Except.ok finalC6 ∧
    getTotalTransactions finalC6.db = 1 ∧
    getLastProcessedBlock finalC6 = 2 :=
  ⟨rfl, rfl, rfl⟩

/-- C7: when the block row was persisted but some transaction write fails,
processBlock surfaces the error to its caller, the watermark is unchanged,
and the block row is in the store — so the whole block will be retried. -/
theorem C7_partial_failure (chain : Chain) (fail : FailModel)
    (s : IndexerState) (n : Int) (bwt : ChainBlock)
    (hb : chain.blocks n = some bwt)
    (hbf : fail.blockFail (mkBlock n bwt) = false)
    (hex : ∃ tx ∈ bwt.transactions, ∃ r, chain.receipts tx.hash = some r ∧
           fail.txFail (mkTransaction tx r n bwt.timestamp) = true) :
    ((processBlock chain fail s n).2).isSome ∧
    getLastProcessedBlock (processBlock chain fail s n).1 =
      getLastProcessedBlock s ∧
    getBlock (processBlock chain fail s n).1.db n = some (mkBlock n bwt) := by
  have herr := processTxs_err_of_exists chain fail n bwt.timestamp
    bwt.transactions (insertBlock (mkBlock n bwt) s.db) hex
  have hbl := processTxs_blocks chain fail n bwt.timestamp bwt.transactions
    (insertBlock (mkBlock n bwt) s.db)
  rcases hp : processTxs chain fail n bwt.timestamp bwt.transactions
      (insertBlock (mkBlock n bwt) s.db) with ⟨db2, err⟩
  rw [hp] at herr hbl
  cases err with
  | none => exact Bool.noConfusion herr
  | some e =>
    have hsome : ((processBlock chain fail s n).2).isSome := by
      simp only [processBlock, hb]
      rw [if_neg (by simp [hbf]), hp]
      rfl
    refine ⟨hsome, processBlock_error_keeps_watermark chain fail s n hsome, ?_⟩
    show ((processBlock chain fail s n).1.db.blocks).find?
        (fun bl => decide (bl.number = n)) = _
    have hdb : (processBlock chain fail s n).1.db.blocks = db2.blocks := by
      simp only [processBlock, hb]
      rw [if_neg (by simp [hbf]), hp]
    rw [hdb, hbl]
    exact find?_upsertBy_self Block.number (mkBlock n bwt) s.db.blocks

/-- C7 witness: the failing-write scenario evaluated on block 4. -/
theorem C7_witness :
    ((processBlock chainC7 failC7 sC7 4).2).isSome ∧
    getLastProcessedBlock (processBlock chainC7 failC7 sC7 4).1 =
      getLastProcessedBlock sC7 ∧
    getBlock (processBlock chainC7 failC7 sC7 4).1.db 4 =
      some (mkBlock 4 bwtC7) :=
  C7_partial_failure chainC7 failC7 sC7 4 bwtC7 rfl rfl
    ⟨txC7, List.mem_cons_self _ _, rC7, rfl, rfl⟩

/-- C8: upserting a block (or transaction) twice with identical data equals
upserting once; after an upsert there is exactly one row for the key, key
uniqueness is preserved, and re-upserting an already-stored key leaves the
row count unchanged (replace, not duplicate). -/
theorem C8_upsert_idempotent (b : Block) (t : Transaction) (db : DBState)
    (hbn : (db.blocks.map Block.number).Nodup)
    (htn : (db.transactions.map Transaction.hash).Nodup) :
    insertBlock b (insertBlock b db) = insertBlock b db ∧
    insertTransaction t (insertTransaction t db) = insertTransaction t db ∧
    (insertBlock b db).blocks.countP (fun r => decide (r.number = b.number)) = 1 ∧
    (insertTransaction t db).transactions.countP
      (fun r => decide (r.hash = t.hash)) = 1 ∧
    ((insertBlock b db).blocks.map Block.number).Nodup ∧
    ((insertTransaction t db).transactions.map Transaction.hash).Nodup ∧
    ((∃ r ∈ db.blocks, r.number = b.number) →
      (insertBlock b db).blocks.length = db.blocks.length) := by
  refine ⟨?_, ?_, ?_, ?_, ?_, ?_, ?_⟩
  · simp only [insertBlock, upsertBy_idem]
  · simp only [insertTransaction, upsertBy_idem]
  · exact countP_upsertBy Block.number b db.blocks hbn
  · exact countP_upsertBy Transaction.hash t db.transactions htn
  · exact nodup_upsertBy Block.number b db.blocks hbn
  · exact nodup_upsertBy Transaction.hash t db.transactions htn
  · exact fun hmem => length_upsertBy_of_mem Block.number b db.blocks hmem

/-- C8 witness: the idempotence and replacement facts evaluated on a
one-block, one-transaction store. -/
theorem C8_witness :
    insertBlock bW (insertBlock bW dbW) = insertBlock bW dbW ∧
    insertTransaction tW (insertTransaction tW dbW) = insertTransaction tW dbW ∧
    (insertBlock bW dbW).blocks.countP
      (fun r => decide (r.number = bW.number)) = 1 ∧
    (insertBlock bW dbW).blocks.length = dbW.blocks.length :=
  ⟨(C8_upsert_idempotent bW tW dbW (by decide) (by decide)).1,
   (C8_upsert_idempotent bW tW dbW (by decide) (by decide)).2.1,
   (C8_upsert_idempotent bW tW dbW (by decide) (by decide)).2.2.1,
   (C8_upsert_idempotent bW tW dbW (by decide) (by decide)).2.2.2.2.2.2
     ⟨bW, by decide, rfl⟩⟩

/-- C9: the classifier tags a contract with a standard exactly when the
contract's exposed function-name set contains every function of that
standard's required set; the ERC20 example set receives the ERC20 tag, the
ERC721 example set receives the ERC721 tag, and a function set satisfying no
required set yields no tags. -/
theorem C9_classifier :
    (∀ (abi : List AbiItem) (iface : String),
      iface ∈ detectInterfaces abi ↔
        ∃ reqs, (iface, reqs) ∈ interfaceDetectors ∧
          ∀ f ∈ reqs, f ∈ abiFunctionNames abi) ∧
    "ERC20" ∈ detectInterfaces erc20Abi ∧
    "ERC721" ∈ detectInterfaces erc721Abi ∧
    detectInterfaces nonStandardAbi = [] := by
  refine ⟨?_, by decide, by decide, by decide⟩
  intro abi iface
  constructor
  · intro h
    rcases List.mem_map.mp h with ⟨d, hd, hfst⟩
    rcases List.mem_filter.mp hd with ⟨hdl, hall⟩
    refine ⟨d.2, ?_, ?_⟩
    · rw [← hfst, Prod.mk.eta]
      exact hdl
    · intro f hf
      have hc := List.all_eq_true.mp hall f hf
      exact List.elem_iff.mp hc
  · rintro ⟨reqs, hmem, hsup⟩
    apply List.mem_map.mpr
    refine ⟨(iface, reqs), List.mem_filter.mpr ⟨hmem, ?_⟩, rfl⟩
    rw [List.all_eq_true]
    intro f hf
    exact List.elem_eq_true_of_mem (hsup f hf)

/-- C9 witness: the ERC20 example set receives the ERC20 tag. -/
theorem C9_witness : "ERC20" ∈ detectInterfaces erc20Abi :=
  C9_classifier.2.1

/-- C10: while the pipeline is not running — before start() or after stop()
cleared the flag — a live-block notification leaves the indexer state (store
and watermark included) completely unchanged; in particular every
notification arriving after stop() is a no-op. -/
theorem C10_not_running_noop (chain : Chain) (fail : FailModel)
    (s : IndexerState) (b : Int) (h : s.isIndexing = false) :
    handleNewBlock chain fail s b = s ∧
    ∀ (s' : IndexerState) (b' : Int),
      isRunning (stop s') = false ∧
      handleNewBlock chain fail (stop s') b' = stop s' := by
  refine ⟨by simp [handleNewBlock, h], fun s' b' => ?_⟩
  by_cases hs : s'.isIndexing = true
  · constructor
    · simp [stop, isRunning, hs]
    · simp [handleNewBlock, stop, hs]
  · have hf : s'.isIndexing = false := by
      cases hb2 : s'.isIndexing
      · rfl
      · exact absurd hb2 hs
    constructor
    · simp [stop, isRunning, hf]
    · simp [handleNewBlock, stop, hf]

/-- C10 witness: notifications on a freshly constructed and on a stopped
indexer are no-ops. -/
theorem C10_witness :
    handleNewBlock chainTrivial noFail (mkIndexer emptyDB) 7 = mkIndexer emptyDB ∧
    (isRunning (stop sRunning) = false ∧
     handleNewBlock chainTrivial noFail (stop sRunning) 9 = stop sRunning) :=
  ⟨(C10_not_running_noop chainTrivial noFail (mkIndexer emptyDB) 7 rfl).1,
   (C10_not_running_noop chainTrivial noFail (mkIndexer emptyDB) 7 rfl).2
     sRunning 9⟩

end Indexer
